import Mathlib

/-!
Shallow embedding of the Stremio aggregation-proxy wrapper (four server
variants: `src/index.js` halves 1 and 2, `src/unnamed/part_000`,
`src/unnamed/part_001`, `src/unnamed/part_002`) together with proofs of
the frozen behavioural claims about it.

Result elements (the JSON objects inside `metas` / `streams` / `subtitles`
arrays) are modelled by an arbitrary type `α`; upstream response bodies are
finite field maps so that the `r.data && Array.isArray(r.data[key])` checks
of the source can be expressed exactly.
-/

namespace StremioWrap

/-- A JSON field value as far as the proxy inspects it: an array of result
elements, or anything else (`Array.isArray` fails on the latter). -/
inductive JVal (α : Type) where
  | arr (xs : List α)
  | other
  deriving DecidableEq

/-- The body of an upstream HTTP response (`r.value.data` / `r.data`):
a finite map from field names to values. -/
structure RData (α : Type) where
  fields : List (String × JVal α)
  deriving DecidableEq

/-- Field access with array check, `Array.isArray(d[key]) ? d[key] : none`:
the array stored under `key`,
if the field exists and is an array. -/
def RData.getArr {α : Type} (d : RData α) (key : String) : Option (List α) :=
  match d.fields.find? (fun p => p.1 == key) with
  | some (_, JVal.arr xs) => some xs
  | _ => none

/-- Outcome of one outbound `axios` call: fulfilled with a (possibly falsy)
body, or rejected (network error / non-2xx both reject in axios). -/
inductive CallOutcome (α : Type) where
  | ok (data : Option (RData α))
  | err
  deriving DecidableEq

/-- The elements one settled call contributes to the merge: the array under
the expected field of a fulfilled response with a truthy body, else nothing.
This is the specification-side formula the merge loop is compared against. -/
def contribSpec {α : Type} (key : String) : CallOutcome α → List α
  | .ok (some d) => (d.getArr key).getD []
  | .ok none => []
  | .err => []

/-- One iteration of the merge loop of `makeHandler`
(`src/unnamed/part_002` lines 130-136): a fulfilled result whose body has
an array under `key` gets its elements pushed, everything else is skipped. -/
def mergeStep {α : Type} (key : String) (acc : List α) : CallOutcome α → List α
  | .ok (some d) =>
    match d.getArr key with
    | some xs => acc ++ xs
    | none => acc
  | .ok none => acc
  | .err => acc

/-- The full merge loop (`results.forEach(... combined.push(...))`) over the
settled outcomes in input order, as `Promise.allSettled` preserves order. -/
def mergeOutcomes {α : Type} (key : String) (outs : List (CallOutcome α)) : List α :=
  outs.foldl (mergeStep key) []

/-- A catalog entry of an upstream manifest (`{ id, type, ... }`). -/
structure Catalog where
  id : String
  type : String
  deriving DecidableEq

/-- The parts of an upstream manifest the proxy reads. `none` models a
missing (or non-array, for `types`) field, matching the `|| []` and
`Array.isArray` guards in the source. -/
structure Manifest where
  catalogs : Option (List Catalog)
  types : Option (List String)
  idPrefixes : Option (List String)
  deriving DecidableEq

/-- An upstream binding: `{ base: bases[i], manifest: r.value.data }`. -/
structure Binding where
  base : String
  manifest : Manifest
  deriving DecidableEq

/-- The JSON body of an inbound POST resource request, as far as the proxy
reads it (`req.body.id`, `req.body.type`); `none` models an absent field. -/
structure ReqBody where
  id : Option String
  type : Option String
  deriving DecidableEq

/-- JS `Array.from(new Set(list))`: deduplicate keeping the first occurrence,
preserving order. `seen` accumulates the elements already emitted. -/
def dedupFirstAux {α : Type} [DecidableEq α] (seen : List α) : List α → List α
  | [] => []
  | x :: xs =>
    if x ∈ seen then dedupFirstAux seen xs
    else x :: dedupFirstAux (x :: seen) xs

/-- JS `Set` insertion-order deduplication. -/
def dedupFirst {α : Type} [DecidableEq α] (l : List α) : List α :=
  dedupFirstAux [] l

/-- The whitespace characters removed by `String.prototype.trim` (ASCII part). -/
def isJsSpace (c : Char) : Bool :=
  c == ' ' || c == '\t' || c == '\n' || c == '\r'

/-- JS `u.trim()`: drop whitespace from both ends. -/
def trimEnds (s : String) : String :=
  String.mk (((s.toList.dropWhile isJsSpace).reverse.dropWhile isJsSpace).reverse)

/-- JS `u.replace(/\/manifest\.json$/i, '')`: strip one trailing
`/manifest.json`, case-insensitively. -/
def stripManifestSuffix (s : String) : String :=
  let cs := s.toList
  let pat := "/manifest.json".toList
  if 14 ≤ cs.length ∧ (cs.drop (cs.length - 14)).map Char.toLower = pat then
    String.mk (cs.take (cs.length - 14))
  else s

/-- JS `u.replace(/\/+$/, '')`: strip all trailing slashes. -/
def stripTrailingSlashes (s : String) : String :=
  String.mk ((s.toList.reverse.dropWhile (fun c => c == '/')).reverse)

/-- The per-entry canonicalization applied to each upstream base URL
(`src/unnamed/part_002` lines 46-48). -/
def canonBase (u : String) : String :=
  stripTrailingSlashes (stripManifestSuffix (trimEnds u))

/-- Upstream Registry normalization of `TARGET_ADDON_BASES`
(`src/unnamed/part_002` lines 44-50, identical in all variants):
canonicalize each entry, drop falsy (empty) entries, deduplicate
preserving first-seen order. -/
def normalize (l : List String) : List String :=
  dedupFirst ((l.map canonBase).filter (fun s => s != ""))

/-- The wrapper manifest fields relevant to the claims, as built by
`initConfig` of `src/unnamed/part_002` lines 73-86 (identically in
`part_000`/`part_001` and the first half of `index.js`). -/
structure Wrapper where
  catalogs : List Catalog
  types : List String
  idPrefixes : List String
  deriving DecidableEq

/-- The `initConfig` wrapper-manifest synthesis (`src/unnamed/part_002`
lines 73-86): `types`/`idPrefixes` are first-seen-order unions, `catalogs`
is `manifests.flatMap(m => m.catalogs || [])`. -/
def mkWrapper (bms : List Binding) : Wrapper :=
  let manifests := bms.map Binding.manifest
  { types := dedupFirst (manifests.flatMap (fun m => m.types.getD []))
    idPrefixes := dedupFirst (manifests.flatMap (fun m => m.idPrefixes.getD []))
    catalogs := manifests.flatMap (fun m => m.catalogs.getD []) }

/-- The wrapper manifest of the channel-remap variant (`src/index.js`
lines 276-309): channel catalogs are relabelled to `movie`, the channel
type is removed from the advertised union, and the original channel
catalog ids are kept under the internal `_channelCatalogIds` field. -/
structure WrapperR where
  catalogs : List Catalog
  types : List String
  idPrefixes : List String
  _channelCatalogIds : List String
  deriving DecidableEq

/-- The `initConfig` of the channel-remap variant (`src/index.js` lines
276-309): wrapper-manifest synthesis including `_channelCatalogIds`. -/
def mkWrapperR (bms : List Binding) : WrapperR :=
  let manifests := bms.map Binding.manifest
  let allCatalogs := manifests.flatMap (fun m => m.catalogs.getD [])
  let channelCatalogIds := (allCatalogs.filter (fun c => c.type == "channel")).map Catalog.id
  let wrappedCatalogs := allCatalogs.map
    (fun c => if c.type = "channel" then { c with type := "movie" } else c)
  { catalogs := wrappedCatalogs
    types := (dedupFirst (manifests.flatMap (fun m => m.types.getD []))).filter
      (fun t => t != "channel")
    idPrefixes := dedupFirst (manifests.flatMap (fun m => m.idPrefixes.getD []))
    _channelCatalogIds := channelCatalogIds }

/-- The body of an outbound HTTP response of the proxy:
a `{ key: [...] }` array payload, a `{ error: ... }` payload, or a served
wrapper manifest (plain or channel-remap variant). -/
inductive RBody (α : Type) where
  | arrField (key : String) (xs : List α)
  | errorBody (msg : String)
  | manifestBody (w : Wrapper)
  | manifestBodyR (w : WrapperR)
  deriving DecidableEq

/-- An HTTP response of the proxy (`res.status(..).json(..)`; `res.json`
alone responds with status 200). -/
structure HttpResp (α : Type) where
  status : Nat
  body : RBody α
  deriving DecidableEq

/-- Lookup in the in-memory per-config maps (`configs[name]`,
`wrapperManifests[name]`), modelled as first-match association lists. -/
def lookupC {β : Type} (l : List (String × β)) (k : String) : Option β :=
  (l.find? (fun p => p.1 == k)).map Prod.snd

/-- The process-wide state built at startup: `configs` and
`wrapperManifests` (`src/unnamed/part_002` lines 30-31). -/
structure ServerState where
  configs : List (String × List Binding)
  wrappers : List (String × Wrapper)

/-- The state before any `initConfig` ran. -/
def emptyState : ServerState := ⟨[], []⟩

/-- The startup `initConfig` (`src/unnamed/part_002` lines 33-90) for one
configuration: normalize the bases, fetch each manifest (`fetchMan b`
models the settled `axios.get` with its `r.value.data` truthiness check),
store the surviving bindings, and build the wrapper manifest only when at
least one binding survived. -/
def initConfig (st : ServerState) (name : String) (rawBases : List String)
    (fetchMan : String → Option Manifest) : ServerState :=
  let bases := normalize rawBases
  let baseManifests := bases.filterMap (fun b => (fetchMan b).map (Binding.mk b))
  let st1 : ServerState := { st with configs := (name, baseManifests) :: st.configs }
  if baseManifests.isEmpty then st1
  else { st1 with wrappers := (name, mkWrapper baseManifests) :: st1.wrappers }

/-- The startup state of the channel-remap variant (`src/index.js`
second half, lines 235-236). -/
structure ServerStateR where
  configs : List (String × List Binding)
  wrappers : List (String × WrapperR)

/-- The channel-remap variant's state before any `initConfig` ran. -/
def emptyStateR : ServerStateR := ⟨[], []⟩

/-- The `initConfig` of the channel-remap variant (`src/index.js` lines
239-313); identical to the plain variant except for the wrapper built. -/
def initConfigR (st : ServerStateR) (name : String) (rawBases : List String)
    (fetchMan : String → Option Manifest) : ServerStateR :=
  let bases := normalize rawBases
  let baseManifests := bases.filterMap (fun b => (fetchMan b).map (Binding.mk b))
  let st1 : ServerStateR := { st with configs := (name, baseManifests) :: st.configs }
  if baseManifests.isEmpty then st1
  else { st1 with wrappers := (name, mkWrapperR baseManifests) :: st1.wrappers }

/-- Target selection of `makeHandler` in `src/unnamed/part_002` lines
112-118 (identical in `part_000` lines 112-119): for `metas` requests whose
body type is not `'channel'`, keep only the bases whose own manifest lists
a catalog with the request body's id; otherwise keep all bases. -/
def selectTargets (key : String) (body : ReqBody) (bases : List Binding) : List Binding :=
  if key = "metas" ∧ body.type ≠ some "channel" then
    bases.filter (fun bm => (bm.manifest.catalogs.getD []).any (fun c => body.id == some c.id))
  else bases

/-- JS `Array.isArray(bm.manifest.types) && bm.manifest.types.includes(t)`. -/
def typesInclude (m : Manifest) (t : String) : Bool :=
  match m.types with
  | some ts => ts.contains t
  | none => false

/-- Target selection of `makeHandler` in `src/unnamed/part_001` lines
107-123: the `metas` catalog-id filter, then a restriction of channel-typed
`streams` requests to the bases whose manifest `types` contain `'channel'`. -/
def selectTargetsP1 (key : String) (body : ReqBody) (bases : List Binding) : List Binding :=
  let t0 := bases
  let t1 :=
    if key = "metas" ∧ body.type ≠ some "channel" then
      t0.filter (fun bm => (bm.manifest.catalogs.getD []).any (fun c => body.id == some c.id))
    else t0
  let t2 :=
    if key = "streams" ∧ body.type = some "channel" then
      t1.filter (fun bm => typesInclude bm.manifest "channel")
    else t1
  t2

/-- Target selection of `makeHandler` in the first half of `src/index.js`
(lines 158-183): each `if` reassigns `targets` from `bases`, so the last
applicable filter wins. Lines 160-165 and 172-177 are the duplicated
`metas` catalog-id filter; line 167 restricts channel-typed streams; line
179 restricts streams with any truthy body type to bases supporting it. -/
def selectTargetsV1 (key : String) (body : ReqBody) (bases : List Binding) : List Binding :=
  let t0 := bases
  let t1 :=
    if key = "metas" ∧ body.type ≠ some "channel" then
      bases.filter (fun bm => (bm.manifest.catalogs.getD []).any (fun c => body.id == some c.id))
    else t0
  let t2 :=
    if key = "streams" ∧ body.type = some "channel" then
      bases.filter (fun bm => typesInclude bm.manifest "channel")
    else t1
  let t3 :=
    if key = "metas" ∧ body.type ≠ some "channel" then
      bases.filter (fun bm => (bm.manifest.catalogs.getD []).any (fun c => body.id == some c.id))
    else t2
  match body.type with
  | some t =>
    if key = "streams" ∧ t ≠ "" then bases.filter (fun bm => typesInclude bm.manifest t)
    else t3
  | none => t3

/-- The POST resource handler made by `makeHandler(key, endpoint)` in
`src/unnamed/part_002` lines 105-139: empty/unknown config answers
`{ [key]: [] }` with status 200; otherwise the body is POSTed to
`<base>/<endpoint>` for each selected target (`net base endpoint body`
models the settled `axios.post`) and the settled results are merged. -/
def makeHandlerP2 {α : Type} (key endpoint : String) (configs : List (String × List Binding))
    (name : String) (body : ReqBody) (net : String → String → ReqBody → CallOutcome α) :
    HttpResp α :=
  let bases := (lookupC configs name).getD []
  if bases.isEmpty then ⟨200, RBody.arrField key []⟩
  else
    let targets := selectTargets key body bases
    ⟨200, RBody.arrField key
      (mergeOutcomes key (targets.map (fun bm => net bm.base endpoint body)))⟩

/-- The POST resource handler of `src/unnamed/part_001` lines 101-143:
as `makeHandlerP2` but with `part_001`'s target selection. -/
def makeHandlerP1 {α : Type} (key endpoint : String) (configs : List (String × List Binding))
    (name : String) (body : ReqBody) (net : String → String → ReqBody → CallOutcome α) :
    HttpResp α :=
  let bases := (lookupC configs name).getD []
  if bases.isEmpty then ⟨200, RBody.arrField key []⟩
  else
    let targets := selectTargetsP1 key body bases
    ⟨200, RBody.arrField key
      (mergeOutcomes key (targets.map (fun bm => net bm.base endpoint body)))⟩

/-- The POST resource handler of the first half of `src/index.js`
(lines 152-202): as `makeHandlerP2` but with that variant's selection. -/
def makeHandlerV1 {α : Type} (key endpoint : String) (configs : List (String × List Binding))
    (name : String) (body : ReqBody) (net : String → String → ReqBody → CallOutcome α) :
    HttpResp α :=
  let bases := (lookupC configs name).getD []
  if bases.isEmpty then ⟨200, RBody.arrField key []⟩
  else
    let targets := selectTargetsV1 key body bases
    ⟨200, RBody.arrField key
      (mergeOutcomes key (targets.map (fun bm => net bm.base endpoint body)))⟩

/-- Route `GET /:config/manifest.json` (`src/unnamed/part_002` lines 98-102):
404 with an error body when no wrapper was stored, else the wrapper. -/
def manifestRoute {α : Type} (st : ServerState) (name : String) : HttpResp α :=
  match lookupC st.wrappers name with
  | none => ⟨404, RBody.errorBody "Config nije pronađen"⟩
  | some w => ⟨200, RBody.manifestBody w⟩

/-- Route `GET /:config/manifest.json` of the channel-remap variant
(`src/index.js` lines 320-324): serves the stored wrapper object as-is. -/
def manifestRouteR {α : Type} (st : ServerStateR) (name : String) : HttpResp α :=
  match lookupC st.wrappers name with
  | none => ⟨404, RBody.errorBody "Config not found"⟩
  | some w => ⟨200, RBody.manifestBodyR w⟩

/-- Route `POST /:config/channels` (`src/unnamed/part_002` lines 147-168,
`part_001` lines 151-170): the request body is POSTed to `<base>/catalog`
for every bound base with no target filtering; each fulfilled response's
`metas` array is pushed as it arrives. The pushes happen inside concurrent
callbacks, so the merge order is a completion order `arrival`, some
permutation of the bound bases (constrained in the theorems). -/
def channelsHandler {α : Type} (configs : List (String × List Binding)) (name : String)
    (body : ReqBody) (net : String → String → ReqBody → CallOutcome α)
    (arrival : List Binding) : HttpResp α :=
  let bases := (lookupC configs name).getD []
  if bases.isEmpty then ⟨200, RBody.arrField "channels" []⟩
  else
    ⟨200, RBody.arrField "channels"
      (mergeOutcomes "metas" (arrival.map (fun bm => net bm.base "catalog" body)))⟩

/-- JS `route.split('/')` then `parts[2]?.replace('.json','')`: JS `replace`
with a string pattern removes the first occurrence of the substring. -/
def replaceFirst (pat : List Char) : List Char → List Char
  | [] => []
  | c :: cs =>
    if pat.isPrefixOf (c :: cs) then (c :: cs).drop pat.length
    else c :: replaceFirst pat cs

/-- JS `route.split('/')`: split at every separator, keeping empty pieces,
exactly as the JS single-character `String.prototype.split`. -/
def splitOnChar (sep : Char) : List Char → List (List Char)
  | [] => [[]]
  | c :: cs =>
    if c == sep then [] :: splitOnChar sep cs
    else
      match splitOnChar sep cs with
      | [] => [[c]]
      | r :: rs => (c :: r) :: rs

/-- JS `route.startsWith(p)`. -/
def startsWithStr (p s : String) : Bool :=
  p.toList.isPrefixOf s.toList

/-- Catalog-id extraction of the legacy GET fallback in
`src/unnamed/part_002` lines 186-187: third path segment, with the first
`.json` occurrence removed; `none` when the segment is absent. -/
def extractIdP2 (route : String) : Option String :=
  ((splitOnChar '/' route.toList)[2]?).map (fun cs => String.mk (replaceFirst ".json".toList cs))

/-- Route-prefix classification of the legacy GET fallback in
`src/unnamed/part_002` lines 178-181. -/
def classifyP2 (route : String) : Option String :=
  if startsWithStr "catalog/" route then some "metas"
  else if startsWithStr "stream/" route then some "streams"
  else if startsWithStr "subtitles/" route then some "subtitles"
  else none

/-- Route-prefix classification of the legacy GET fallback in the first
half of `src/index.js` (lines 137-141), which also accepts `channels/`. -/
def classifyV1 (route : String) : Option String :=
  if startsWithStr "catalog/" route then some "metas"
  else if startsWithStr "stream/" route then some "streams"
  else if startsWithStr "subtitles/" route then some "subtitles"
  else if startsWithStr "channels/" route then some "channels"
  else none

/-- Target filtering of the legacy GET fallback in `src/unnamed/part_002`
lines 184-191, applied when the route classifies as `metas`. -/
def legacyTargetsP2 (route : String) (bases : List Binding) : List Binding :=
  bases.filter (fun bm =>
    (bm.manifest.catalogs.getD []).any (fun c => extractIdP2 route == some c.id))

/-- The legacy GET fallback of `src/unnamed/part_002` lines 171-205:
classify the trailing path, filter targets by extracted catalog id for
`metas` routes, GET `<base>/<route>` per target (`netGet base route`
models the settled `axios.get`), merge the settled results. -/
def legacyP2 {α : Type} (configs : List (String × List Binding)) (name route : String)
    (netGet : String → String → CallOutcome α) : HttpResp α :=
  let bases := (lookupC configs name).getD []
  if bases.isEmpty then ⟨404, RBody.errorBody "Config nije pronađen"⟩
  else
    match classifyP2 route with
    | none => ⟨404, RBody.errorBody "Nije pronađeno"⟩
    | some key =>
      let targets := if key = "metas" then legacyTargetsP2 route bases else bases
      ⟨200, RBody.arrField key
        (mergeOutcomes key (targets.map (fun bm => netGet bm.base route)))⟩

/-- The legacy GET fallback of the first half of `src/index.js` (lines
131-150): classifies the trailing path but applies NO catalog-id
filtering — every bound base is queried sequentially and merged. -/
def legacyV1 {α : Type} (configs : List (String × List Binding)) (name route : String)
    (netGet : String → String → CallOutcome α) : HttpResp α :=
  let bases := (lookupC configs name).getD []
  if bases.isEmpty then ⟨404, RBody.errorBody "Config not found"⟩
  else
    match classifyV1 route with
    | none => ⟨404, RBody.errorBody "Not found"⟩
    | some key =>
      ⟨200, RBody.arrField key
        (mergeOutcomes key (bases.map (fun bm => netGet bm.base route)))⟩

/-- A concrete upstream whose manifest lists catalog id `top` of type
`movie` (used for concrete instances). -/
def bmTop : Binding := ⟨"http://a", ⟨some [⟨"top", "movie"⟩], some ["movie"], none⟩⟩

/-- A concrete upstream whose manifest lists no catalogs and only the
`series` type (used for concrete instances). -/
def bmSeries : Binding := ⟨"http://b", ⟨none, some ["series"], none⟩⟩

/-- A concrete store binding the `demo` configuration to `bmTop` and
`bmSeries` (used for concrete instances). -/
def demoConfigs : List (String × List Binding) := [("demo", [bmTop, bmSeries])]

/-- A concrete POST network: `bmTop` answers with `metas: ["a1"]`,
everything else with `metas: ["b1"]` (used for concrete instances). -/
def demoNetPost : String → String → ReqBody → CallOutcome String := fun base _ _ =>
  if base == "http://a" then CallOutcome.ok (some ⟨[("metas", JVal.arr ["a1"])]⟩)
  else CallOutcome.ok (some ⟨[("metas", JVal.arr ["b1"])]⟩)

/-- The same network for legacy GET calls (used for concrete instances). -/
def demoNetGet : String → String → CallOutcome String := fun base _ =>
  if base == "http://a" then CallOutcome.ok (some ⟨[("metas", JVal.arr ["a1"])]⟩)
  else CallOutcome.ok (some ⟨[("metas", JVal.arr ["b1"])]⟩)

/-! Helper lemmas shared by the claim theorems. -/

theorem mergeStep_eq {α : Type} (key : String) (acc : List α) (o : CallOutcome α) :
    mergeStep key acc o = acc ++ contribSpec key o := by
  cases o with
  | err => simp [mergeStep, contribSpec]
  | ok data =>
    cases data with
    | none => simp [mergeStep, contribSpec]
    | some d =>
      cases h : d.getArr key with
      | none => simp [mergeStep, contribSpec, h]
      | some xs => simp [mergeStep, contribSpec, h]

theorem foldl_mergeStep_eq {α : Type} (key : String) (outs : List (CallOutcome α))
    (acc : List α) :
    outs.foldl (mergeStep key) acc = acc ++ (outs.map (contribSpec key)).flatten := by
  induction outs generalizing acc with
  | nil => simp
  | cons o outs ih => simp [List.foldl_cons, mergeStep_eq, ih, List.append_assoc]

/-- The merge loop computes exactly the concatenation of the per-call
contributions, in settled-result order. -/
theorem mergeOutcomes_eq_flatten {α : Type} (key : String) (outs : List (CallOutcome α)) :
    mergeOutcomes key outs = (outs.map (contribSpec key)).flatten := by
  simpa using foldl_mergeStep_eq key outs []

theorem mergeOutcomes_append {α : Type} (key : String) (l1 l2 : List (CallOutcome α)) :
    mergeOutcomes key (l1 ++ l2) = mergeOutcomes key l1 ++ mergeOutcomes key l2 := by
  simp [mergeOutcomes_eq_flatten]

theorem mem_dedupFirstAux {α : Type} [DecidableEq α] (l : List α) (seen : List α) (a : α) :
    a ∈ dedupFirstAux seen l ↔ a ∈ l ∧ a ∉ seen := by
  induction l generalizing seen with
  | nil => simp [dedupFirstAux]
  | cons x xs ih =>
    by_cases hx : x ∈ seen
    · simp only [dedupFirstAux, if_pos hx, ih, List.mem_cons]
      constructor
      · rintro ⟨h1, h2⟩; exact ⟨Or.inr h1, h2⟩
      · rintro ⟨h1 | h1, h2⟩
        · exact absurd (h1 ▸ hx) h2
        · exact ⟨h1, h2⟩
    · simp only [dedupFirstAux, if_neg hx, List.mem_cons, ih]
      constructor
      · rintro (rfl | ⟨h1, h2⟩)
        · exact ⟨Or.inl rfl, hx⟩
        · refine ⟨Or.inr h1, fun hs => h2 (Or.inr hs)⟩
      · rintro ⟨rfl | h1, h2⟩
        · exact Or.inl rfl
        · by_cases hax : a = x
          · exact Or.inl hax
          · exact Or.inr ⟨h1, by simp [List.mem_cons, hax, h2]⟩

theorem nodup_dedupFirstAux {α : Type} [DecidableEq α] (l : List α) (seen : List α) :
    (dedupFirstAux seen l).Nodup := by
  induction l generalizing seen with
  | nil => simp [dedupFirstAux]
  | cons x xs ih =>
    by_cases hx : x ∈ seen
    · simpa [dedupFirstAux, if_pos hx] using ih seen
    · rw [dedupFirstAux, if_neg hx]
      refine List.nodup_cons.mpr ⟨?_, ih (x :: seen)⟩
      intro hmem
      exact ((mem_dedupFirstAux xs (x :: seen) x).mp hmem).2 (List.mem_cons_self x seen)

theorem dedupFirstAux_eq_self {α : Type} [DecidableEq α] (l : List α) (seen : List α)
    (hn : l.Nodup) (hd : ∀ a ∈ l, a ∉ seen) : dedupFirstAux seen l = l := by
  induction l generalizing seen with
  | nil => rfl
  | cons x xs ih =>
    have hx : x ∉ seen := hd x (List.mem_cons_self x xs)
    rw [dedupFirstAux, if_neg hx]
    congr 1
    refine ih (x :: seen) (List.Nodup.of_cons hn) ?_
    intro a ha
    simp only [List.mem_cons]
    rintro (rfl | hs)
    · exact (List.nodup_cons.mp hn).1 ha
    · exact hd a (List.mem_cons_of_mem _ ha) hs

/-! Claim theorems. -/

/-- C2: for every resource request fanned out to the selected upstreams, the
failure of any one upstream call — a rejection (`CallOutcome.err`, covering
network errors and non-2xx), a falsy body (`ok none`), or a body without an
array under the expected field — removes only that upstream's contribution
from the merged sequence: the concatenated contributions of all other
upstreams are unchanged, and the handler's HTTP status is always 200. -/
theorem upstream_failure_isolated {α : Type} :
    (∀ (key : String) (outs1 outs2 : List (CallOutcome α)),
      mergeOutcomes key (outs1 ++ CallOutcome.err :: outs2)
        = mergeOutcomes key outs1 ++ mergeOutcomes key outs2)
    ∧ (∀ (key : String) (outs1 outs2 : List (CallOutcome α)),
      mergeOutcomes key (outs1 ++ CallOutcome.ok none :: outs2)
        = mergeOutcomes key outs1 ++ mergeOutcomes key outs2)
    ∧ (∀ (key : String) (d : RData α) (outs1 outs2 : List (CallOutcome α)),
      d.getArr key = none →
      mergeOutcomes key (outs1 ++ CallOutcome.ok (some d) :: outs2)
        = mergeOutcomes key outs1 ++ mergeOutcomes key outs2)
    ∧ (∀ (key endpoint name : String) (configs : List (String × List Binding))
        (body : ReqBody) (net : String → String → ReqBody → CallOutcome α),
      (makeHandlerP2 key endpoint configs name body net).status = 200) := by
  refine ⟨?_, ?_, ?_, ?_⟩
  · intro key outs1 outs2
    simp [mergeOutcomes_eq_flatten, contribSpec]
  · intro key outs1 outs2
    simp [mergeOutcomes_eq_flatten, contribSpec]
  · intro key d outs1 outs2 h
    simp [mergeOutcomes_eq_flatten, contribSpec, h]
  · intro key endpoint name configs body net
    by_cases h : ((lookupC configs name).getD []).isEmpty <;>
      simp [makeHandlerP2, h]

/-- C2 witness: isolating a malformed-body failure between two settled
outcomes at a concrete input. -/
theorem upstream_failure_isolated_witness :
    (RData.getArr (α := String) ⟨[("other", JVal.arr ["x"])]⟩ "metas" = none)
    ∧ mergeOutcomes "metas"
        ([CallOutcome.ok (some ⟨[("metas", JVal.arr ["m1"])]⟩)] ++
          CallOutcome.ok (some ⟨[("other", JVal.arr ["x"])]⟩) ::
            [CallOutcome.ok (some ⟨[("metas", JVal.arr ["m2"])]⟩)])
      = mergeOutcomes "metas" [CallOutcome.ok (some ⟨[("metas", JVal.arr ["m1"])]⟩)]
        ++ mergeOutcomes "metas" [CallOutcome.ok (some ⟨[("metas", JVal.arr ["m2"])]⟩)] :=
  ⟨by decide,
    (upstream_failure_isolated (α := String)).2.2.1 "metas" ⟨[("other", JVal.arr ["x"])]⟩
      [CallOutcome.ok (some ⟨[("metas", JVal.arr ["m1"])]⟩)]
      [CallOutcome.ok (some ⟨[("metas", JVal.arr ["m2"])]⟩)] (by decide)⟩

/-- C3: the merged result is the order-preserving concatenation of the
expected-field arrays of the successful upstream responses, with no
deduplication (two identical singleton responses contribute the element
twice), a response lacking an array under the expected field contributes
nothing, and the handler's response carries exactly that concatenation over
the selected targets. -/
theorem merge_is_concatenation {α : Type} :
    (∀ (key : String) (outs : List (CallOutcome α)),
      mergeOutcomes key outs = (outs.map (contribSpec key)).flatten)
    ∧ (∀ (key : String) (e : α),
      mergeOutcomes key
        [CallOutcome.ok (some ⟨[(key, JVal.arr [e])]⟩),
          CallOutcome.ok (some ⟨[(key, JVal.arr [e])]⟩)] = [e, e])
    ∧ (∀ (key : String) (d : RData α) (outs : List (CallOutcome α)),
      d.getArr key = none →
        mergeOutcomes key (CallOutcome.ok (some d) :: outs) = mergeOutcomes key outs)
    ∧ (∀ (key endpoint name : String) (configs : List (String × List Binding))
        (body : ReqBody) (net : String → String → ReqBody → CallOutcome α),
      (lookupC configs name).getD [] ≠ [] →
      makeHandlerP2 key endpoint configs name body net
        = ⟨200, RBody.arrField key
            (((selectTargets key body ((lookupC configs name).getD [])).map
              (fun bm => contribSpec key (net bm.base endpoint body))).flatten)⟩) := by
  refine ⟨?_, ?_, ?_, ?_⟩
  · intro key outs
    exact mergeOutcomes_eq_flatten key outs
  · intro key e
    have harr : RData.getArr (α := α) ⟨[(key, JVal.arr [e])]⟩ key = some [e] := by
      simp [RData.getArr, List.find?]
    simp [mergeOutcomes_eq_flatten, contribSpec, harr]
  · intro key d outs h
    simp [mergeOutcomes_eq_flatten, contribSpec, h]
  · intro key endpoint name configs body net hne
    rw [makeHandlerP2, if_neg (by simpa [List.isEmpty_iff] using hne)]
    simp [mergeOutcomes_eq_flatten, List.map_map, Function.comp_def]

/-- C3 witness: the handler-level concatenation at a concrete input. -/
theorem merge_is_concatenation_witness :
    ((lookupC [("demo", [Binding.mk "http://a" ⟨none, none, none⟩])] "demo").getD [] ≠ [])
    ∧ makeHandlerP2 "subtitles" "subtitles" [("demo", [Binding.mk "http://a" ⟨none, none, none⟩])]
        "demo" ⟨some "tt1", some "movie"⟩
        (fun _ _ _ => CallOutcome.ok (some ⟨[("subtitles", JVal.arr ["s1"])]⟩))
      = ⟨200, RBody.arrField "subtitles"
          (((selectTargets "subtitles" ⟨some "tt1", some "movie"⟩
              ((lookupC [("demo", [Binding.mk "http://a" ⟨none, none, none⟩])] "demo").getD [])).map
            (fun bm => contribSpec "subtitles"
              ((fun _ _ _ => CallOutcome.ok (some ⟨[("subtitles", JVal.arr ["s1"])]⟩))
                bm.base "subtitles" (⟨some "tt1", some "movie"⟩ : ReqBody)))).flatten)⟩ :=
  ⟨by decide,
    (merge_is_concatenation (α := String)).2.2.2 "subtitles" "subtitles" "demo"
      [("demo", [Binding.mk "http://a" ⟨none, none, none⟩])] ⟨some "tt1", some "movie"⟩
      (fun _ _ _ => CallOutcome.ok (some ⟨[("subtitles", JVal.arr ["s1"])]⟩)) (by decide)⟩

/-- C5: the synthesized wrapper manifest's `catalogs` is the concatenation of
each binding's manifest catalogs in binding order (missing `catalogs` fields
contributing the empty list), and element counts add up across bindings, so
no id-based deduplication happens. -/
theorem wrapper_catalogs_concat (bms : List Binding) :
    (mkWrapper bms).catalogs = (bms.map (fun b => b.manifest.catalogs.getD [])).flatten
    ∧ ∀ c : Catalog, ((mkWrapper bms).catalogs).count c
        = (bms.map (fun b => (b.manifest.catalogs.getD []).count c)).sum := by
  have h1 : (mkWrapper bms).catalogs
      = (bms.map (fun b => b.manifest.catalogs.getD [])).flatten := by
    simp [mkWrapper, List.flatMap_def, List.map_map, Function.comp_def]
  refine ⟨h1, fun c => ?_⟩
  rw [h1, List.count_flatten, List.map_map]
  simp [Function.comp_def]

/-- C1: for a POST catalog/meta request (`key = "metas"`) whose body type is
not the channel category, the selected targets are exactly the bound
upstreams whose own manifest lists a catalog with the request body's id;
when the body type is the channel category, the catalog-id filter is
skipped and every bound upstream is selected. -/
theorem catalog_meta_target_filter (bases : List Binding) (body : ReqBody) :
    (body.type ≠ some "channel" →
      ∀ bm, bm ∈ selectTargets "metas" body bases ↔
        bm ∈ bases ∧ ∃ c ∈ bm.manifest.catalogs.getD [], body.id = some c.id)
    ∧ (body.type = some "channel" → selectTargets "metas" body bases = bases) := by
  constructor
  · intro h bm
    rw [selectTargets, if_pos ⟨rfl, h⟩]
    simp [List.mem_filter, List.any_eq_true]
  · intro h
    rw [selectTargets, if_neg (by simp [h])]

/-- C1 witness: with upstream A listing catalog id `top` and upstream B
listing none, a non-channel request for `top` selects exactly A; a
channel-typed request selects both. -/
theorem catalog_meta_target_filter_witness :
    ((some "movie" : Option String) ≠ some "channel")
    ∧ Binding.mk "http://a" ⟨some [⟨"top", "movie"⟩], none, none⟩
        ∈ selectTargets "metas" ⟨some "top", some "movie"⟩
          [Binding.mk "http://a" ⟨some [⟨"top", "movie"⟩], none, none⟩,
            Binding.mk "http://b" ⟨none, none, none⟩]
    ∧ Binding.mk "http://b" ⟨none, none, none⟩
        ∉ selectTargets "metas" ⟨some "top", some "movie"⟩
          [Binding.mk "http://a" ⟨some [⟨"top", "movie"⟩], none, none⟩,
            Binding.mk "http://b" ⟨none, none, none⟩]
    ∧ selectTargets "metas" ⟨some "top", some "channel"⟩
          [Binding.mk "http://a" ⟨some [⟨"top", "movie"⟩], none, none⟩,
            Binding.mk "http://b" ⟨none, none, none⟩]
        = [Binding.mk "http://a" ⟨some [⟨"top", "movie"⟩], none, none⟩,
            Binding.mk "http://b" ⟨none, none, none⟩] := by
  have h := catalog_meta_target_filter
    [Binding.mk "http://a" ⟨some [⟨"top", "movie"⟩], none, none⟩,
      Binding.mk "http://b" ⟨none, none, none⟩] ⟨some "top", some "movie"⟩
  have h2 := catalog_meta_target_filter
    [Binding.mk "http://a" ⟨some [⟨"top", "movie"⟩], none, none⟩,
      Binding.mk "http://b" ⟨none, none, none⟩] ⟨some "top", some "channel"⟩
  refine ⟨by decide, ?_, ?_, h2.2 rfl⟩
  · exact (h.1 (by decide) _).mpr (by decide)
  · intro hmem
    have := (h.1 (by decide) _).mp hmem
    revert this
    decide

/-- C4 counterexample: the Upstream Registry normalization is not
idempotent — an entry ending in `/manifest.json/` loses only the trailing
slash on the first pass, and only the second pass strips the then-exposed
`/manifest.json` suffix. -/
theorem normalize_not_idempotent :
    normalize (normalize ["http://a/manifest.json/"])
      ≠ normalize ["http://a/manifest.json/"] := by decide

/-- C4 amended: the normalization is idempotent on every input whose first
pass produces only fixed points of the per-entry canonicalization; in
general a second pass can shrink entries further, as
`normalize_not_idempotent` shows. -/
theorem normalize_idempotent_of_canonical (x : List String)
    (h : ∀ y ∈ normalize x, canonBase y = y) :
    normalize (normalize x) = normalize x := by
  have hmem : ∀ y ∈ normalize x, (y != "") = true := by
    intro y hy
    have hy2 : y ∈ (x.map canonBase).filter (fun s => s != "") :=
      ((mem_dedupFirstAux _ [] y).mp hy).1
    exact (List.mem_filter.mp hy2).2
  have hnd : (normalize x).Nodup := nodup_dedupFirstAux _ []
  calc normalize (normalize x)
      = dedupFirst (((normalize x).map canonBase).filter (fun s => s != "")) := rfl
    _ = dedupFirst ((normalize x).filter (fun s => s != "")) := by
        have hcongr : (normalize x).map canonBase = (normalize x).map id :=
          List.map_congr_left (fun a ha => h a ha)
        rw [hcongr, List.map_id]
    _ = dedupFirst (normalize x) := by rw [List.filter_eq_self.mpr hmem]
    _ = normalize x := dedupFirstAux_eq_self _ [] hnd (by simp)

/-- C4 witness: a list with a duplicate-after-canonicalization entry whose
normalization is a canonical fixed point, hence idempotent. -/
theorem normalize_idempotent_of_canonical_witness :
    (∀ y ∈ normalize ["http://a/", "http://a"], canonBase y = y)
    ∧ normalize (normalize ["http://a/", "http://a"])
        = normalize ["http://a/", "http://a"] :=
  ⟨by decide, normalize_idempotent_of_canonical ["http://a/", "http://a"] (by decide)⟩

/-- C6: after initializing a configuration all of whose manifest fetches
failed, every POST resource handler answers 200 with an empty array under
its resource key while the manifest endpoint answers 404 with an error
body; a configuration name with no `configs` entry at all (unknown or
failed to load) gets the same empty-array success responses. -/
theorem zero_bindings_responses {α : Type} (name : String) (rawBases : List String)
    (fetchMan : String → Option Manifest)
    (h : ∀ b ∈ normalize rawBases, fetchMan b = none)
    (key endpoint : String) (body : ReqBody)
    (net : String → String → ReqBody → CallOutcome α) :
    (makeHandlerP2 key endpoint (initConfig emptyState name rawBases fetchMan).configs
        name body net = ⟨200, RBody.arrField key []⟩)
    ∧ manifestRoute (α := α) (initConfig emptyState name rawBases fetchMan) name
        = ⟨404, RBody.errorBody "Config nije pronađen"⟩
    ∧ (∀ (configs : List (String × List Binding)) (name2 : String),
        lookupC configs name2 = none →
        makeHandlerP2 key endpoint configs name2 body net
          = ⟨200, RBody.arrField key []⟩) := by
  have hbm : (normalize rawBases).filterMap (fun b => (fetchMan b).map (Binding.mk b)) = [] :=
    List.filterMap_eq_nil_iff.mpr (by intro a ha; rw [h a ha]; rfl)
  refine ⟨?_, ?_, ?_⟩
  · rw [initConfig]
    simp only [hbm, List.isEmpty_nil, if_pos]
    simp [makeHandlerP2, lookupC, emptyState]
  · rw [initConfig]
    simp only [hbm, List.isEmpty_nil, if_pos]
    simp [manifestRoute, lookupC, emptyState]
  · intro configs name2 hnone
    simp [makeHandlerP2, hnone]

/-- C6 witness: a concrete configuration whose single fetch fails. -/
theorem zero_bindings_responses_witness :
    (∀ b ∈ normalize ["http://a"], (fun _ : String => (none : Option Manifest)) b = none)
    ∧ makeHandlerP2 "streams" "stream"
        (initConfig emptyState "demo" ["http://a"] (fun _ => none)).configs
        "demo" ⟨some "tt1", some "movie"⟩
        (fun _ _ _ => (CallOutcome.err : CallOutcome String))
      = ⟨200, RBody.arrField "streams" []⟩ :=
  ⟨fun _ _ => rfl,
    (zero_bindings_responses "demo" ["http://a"] (fun _ => none) (fun _ _ => rfl)
      "streams" "stream" ⟨some "tt1", some "movie"⟩
      (fun _ _ _ => (CallOutcome.err : CallOutcome String))).1⟩

/-- C7 counterexample: in the first `src/index.js` variant a stream request
with body type `movie` is NOT dispatched to all bound upstreams — an
upstream whose manifest types lack `movie` is dropped (line 179 filters
streams by any truthy body type, not only the channel category). -/
theorem stream_fanout_counterexample :
    selectTargetsV1 "streams" ⟨some "tt1", some "movie"⟩ [bmSeries] = []
    ∧ ([bmSeries] : List Binding) ≠ [] := by decide

/-- C7 amended: in the `part_001` variant, non-channel stream requests go to
all bound upstreams and channel-typed ones only to upstreams whose manifest
types include the channel category, the combined streams being the
concatenation of the successful responses' arrays; in the `src/index.js`
variant, however, any stream request with a non-empty body type is
restricted to the upstreams whose manifest types include that type. -/
theorem stream_dispatch_by_variant (bases : List Binding) (body : ReqBody) :
    (body.type ≠ some "channel" → selectTargetsP1 "streams" body bases = bases)
    ∧ (body.type = some "channel" →
        selectTargetsP1 "streams" body bases
          = bases.filter (fun bm => typesInclude bm.manifest "channel"))
    ∧ (∀ t : String, body.type = some t → t ≠ "" →
        selectTargetsV1 "streams" body bases
          = bases.filter (fun bm => typesInclude bm.manifest t))
    ∧ (body.type = none → selectTargetsV1 "streams" body bases = bases)
    ∧ (∀ (α : Type) (configs : List (String × List Binding)) (name endpoint : String)
        (net : String → String → ReqBody → CallOutcome α),
        (lookupC configs name).getD [] ≠ [] →
        makeHandlerP1 "streams" endpoint configs name body net
          = ⟨200, RBody.arrField "streams"
              (((selectTargetsP1 "streams" body ((lookupC configs name).getD [])).map
                (fun bm => contribSpec "streams" (net bm.base endpoint body))).flatten)⟩) := by
  refine ⟨?_, ?_, ?_, ?_, ?_⟩
  · intro h
    simp [selectTargetsP1, h]
  · intro h
    simp [selectTargetsP1, h]
  · intro t ht hne
    simp [selectTargetsV1, ht, hne]
  · intro h
    simp [selectTargetsV1, h]
  · intro α configs name endpoint net hne
    rw [makeHandlerP1, if_neg (by simpa [List.isEmpty_iff] using hne)]
    simp [mergeOutcomes_eq_flatten, List.map_map, Function.comp_def]

/-- C7 witness: a non-channel stream request in the `part_001` variant
dispatches to the full binding list. -/
theorem stream_dispatch_by_variant_witness :
    ((some "movie" : Option String) ≠ some "channel")
    ∧ selectTargetsP1 "streams" ⟨some "tt1", some "movie"⟩ [bmTop, bmSeries]
        = [bmTop, bmSeries] :=
  ⟨by decide,
    (stream_dispatch_by_variant [bmTop, bmSeries] ⟨some "tt1", some "movie"⟩).1 (by decide)⟩

/-- C8 counterexample: in the first `src/index.js` variant, the legacy GET
catalog path applies no catalog-id filtering, so for the same configuration
and catalog id the POST dispatch (which selects only the upstream owning
catalog `top`) and the legacy GET path (which queries every bound upstream)
return different merged results. -/
theorem legacy_filter_divergence_counterexample :
    makeHandlerV1 "metas" "catalog" demoConfigs "demo" ⟨some "top", some "movie"⟩ demoNetPost
      = ⟨200, RBody.arrField "metas" ["a1"]⟩
    ∧ legacyV1 demoConfigs "demo" "catalog/movie/top.json" demoNetGet
      = ⟨200, RBody.arrField "metas" ["a1", "b1"]⟩
    ∧ (RBody.arrField "metas" ["a1"] : RBody String)
        ≠ RBody.arrField "metas" ["a1", "b1"] := by decide

/-- C8 amended: in the `part_002` variant the legacy GET adapter extracts
the catalog id from path segment position 2 and selects exactly the targets
of the POST catalog dispatch for that id (for any non-channel body type),
merging with the same expected-field rule; the first `src/index.js`
variant's legacy adapter, however, applies no catalog-id filtering and
queries every bound upstream, diverging from its own POST path. -/
theorem legacy_adapter_semantics (bases : List Binding) (route : String) (ty : Option String)
    (hty : ty ≠ some "channel") :
    legacyTargetsP2 route bases = selectTargets "metas" ⟨extractIdP2 route, ty⟩ bases
    ∧ (∀ (α : Type) (configs : List (String × List Binding)) (name : String)
        (netGet : String → String → CallOutcome α),
        classifyP2 route = some "metas" →
        bases = (lookupC configs name).getD [] → bases ≠ [] →
        legacyP2 configs name route netGet
          = ⟨200, RBody.arrField "metas"
              (mergeOutcomes "metas"
                ((legacyTargetsP2 route bases).map (fun bm => netGet bm.base route)))⟩)
    ∧ (∀ (α : Type) (configs : List (String × List Binding)) (name key : String)
        (netGet : String → String → CallOutcome α),
        classifyV1 route = some key →
        bases = (lookupC configs name).getD [] → bases ≠ [] →
        legacyV1 configs name route netGet
          = ⟨200, RBody.arrField key
              (mergeOutcomes key (bases.map (fun bm => netGet bm.base route)))⟩) := by
  refine ⟨?_, ?_, ?_⟩
  · rw [selectTargets, if_pos ⟨rfl, hty⟩]
    rfl
  · intro α configs name netGet hclass hbases hne
    rw [legacyP2, ← hbases, if_neg (by simpa [List.isEmpty_iff] using hne), hclass]
    simp
  · intro α configs name key netGet hclass hbases hne
    rw [legacyV1, ← hbases, if_neg (by simpa [List.isEmpty_iff] using hne), hclass]

/-- C8 witness: the `part_002` legacy target set for a concrete catalog
route coincides with the POST dispatch's selection for the extracted id. -/
theorem legacy_adapter_semantics_witness :
    ((some "movie" : Option String) ≠ some "channel")
    ∧ legacyTargetsP2 "catalog/movie/top.json" [bmTop, bmSeries]
        = selectTargets "metas" ⟨extractIdP2 "catalog/movie/top.json", some "movie"⟩
            [bmTop, bmSeries] :=
  ⟨by decide,
    (legacy_adapter_semantics [bmTop, bmSeries] "catalog/movie/top.json" (some "movie")
      (by decide)).1⟩

/-- C9: for a configuration with at least one binding, `POST
/:config/channels` sends the request body to every bound upstream's
`/catalog` endpoint with no target filtering, and answers 200 with
`channels` equal to the concatenation of the `metas` arrays of the
successful responses in completion order (a permutation of the bindings),
failed calls contributing nothing. -/
theorem channels_full_fanout {α : Type} (configs : List (String × List Binding))
    (name : String) (body : ReqBody) (net : String → String → ReqBody → CallOutcome α)
    (arrival : List Binding)
    (hperm : arrival.Perm ((lookupC configs name).getD []))
    (hne : (lookupC configs name).getD [] ≠ []) :
    channelsHandler configs name body net arrival
      = ⟨200, RBody.arrField "channels"
          ((arrival.map (fun bm => contribSpec "metas" (net bm.base "catalog" body))).flatten)⟩
    ∧ ((arrival.map (fun bm => contribSpec "metas" (net bm.base "catalog" body))).flatten).Perm
        ((((lookupC configs name).getD []).map
          (fun bm => contribSpec "metas" (net bm.base "catalog" body))).flatten) := by
  constructor
  · rw [channelsHandler, if_neg (by simpa [List.isEmpty_iff] using hne)]
    simp [mergeOutcomes_eq_flatten, List.map_map, Function.comp_def]
  · rw [← List.flatMap_def, ← List.flatMap_def]
    exact hperm.flatMap_right _

/-- C9 witness: a completion order that reverses the binding order still
yields the full fan-out result. -/
theorem channels_full_fanout_witness :
    ([bmSeries, bmTop].Perm ((lookupC demoConfigs "demo").getD []))
    ∧ ((lookupC demoConfigs "demo").getD [] ≠ [])
    ∧ (channelsHandler demoConfigs "demo" ⟨some "top", none⟩ demoNetPost [bmSeries, bmTop]
        = ⟨200, RBody.arrField "channels"
            (([bmSeries, bmTop].map
              (fun bm => contribSpec "metas" (demoNetPost bm.base "catalog" ⟨some "top", none⟩))).flatten)⟩
      ∧ (([bmSeries, bmTop].map
            (fun bm => contribSpec "metas" (demoNetPost bm.base "catalog" ⟨some "top", none⟩))).flatten).Perm
          ((((lookupC demoConfigs "demo").getD []).map
            (fun bm => contribSpec "metas" (demoNetPost bm.base "catalog" ⟨some "top", none⟩))).flatten)) :=
  ⟨by decide, by decide,
    channels_full_fanout demoConfigs "demo" ⟨some "top", none⟩ demoNetPost [bmSeries, bmTop]
      (by decide) (by decide)⟩

/-- C10: in the channel-remap variant, `GET /:config/manifest.json` serves
exactly the stored wrapper object — including the internal
`_channelCatalogIds` field, which equals the ids of all channel-typed
upstream catalogs in binding order — so this routing data is visible to
every client fetching the manifest. -/
theorem remap_manifest_serves_internal_ids {α : Type} (name : String) (rawBases : List String)
    (fetchMan : String → Option Manifest)
    (hne : (normalize rawBases).filterMap (fun b => (fetchMan b).map (Binding.mk b)) ≠ []) :
    manifestRouteR (α := α) (initConfigR emptyStateR name rawBases fetchMan) name
      = ⟨200, RBody.manifestBodyR
          (mkWrapperR ((normalize rawBases).filterMap (fun b => (fetchMan b).map (Binding.mk b))))⟩
    ∧ ∀ bms : List Binding,
        (mkWrapperR bms)._channelCatalogIds
          = (((bms.map (fun b => b.manifest.catalogs.getD [])).flatten).filter
              (fun c => c.type == "channel")).map Catalog.id := by
  constructor
  · rw [initConfigR]
    rw [if_neg (by simpa [List.isEmpty_iff] using hne)]
    simp [manifestRouteR, lookupC]
  · intro bms
    simp [mkWrapperR, List.flatMap_def, List.map_map, Function.comp_def]

/-- C10 witness: one upstream with a channel catalog; the route serves the
stored wrapper whose internal field holds that catalog's id. -/
theorem remap_manifest_serves_internal_ids_witness :
    ((normalize ["http://a"]).filterMap
        (fun b => ((fun _ : String =>
          some (⟨some [⟨"chan1", "channel"⟩], some ["channel"], none⟩ : Manifest)) b).map
            (Binding.mk b)) ≠ [])
    ∧ manifestRouteR (α := String)
        (initConfigR emptyStateR "demo" ["http://a"]
          (fun _ => some ⟨some [⟨"chan1", "channel"⟩], some ["channel"], none⟩)) "demo"
      = ⟨200, RBody.manifestBodyR
          (mkWrapperR ((normalize ["http://a"]).filterMap
            (fun b => ((fun _ : String =>
              some (⟨some [⟨"chan1", "channel"⟩], some ["channel"], none⟩ : Manifest)) b).map
                (Binding.mk b))))⟩ :=
  ⟨by decide,
    (remap_manifest_serves_internal_ids "demo" ["http://a"]
      (fun _ => some ⟨some [⟨"chan1", "channel"⟩], some ["channel"], none⟩) (by decide)).1⟩

end StremioWrap
